import Mathlib

/-!
Verification of the daily-news-digest pipeline (scrapers.py, email_sender.py,
main.py).  Python strings are modelled as lists of characters (`Str`), feed
entries and parsed feeds as records, and the renderer as a function producing
the list of text lines and the list of HTML parts that the code joins with a
newline before returning.
-/

/-- Python strings are modelled as lists of characters. -/
abbrev Str := List Char

/-- Character list of a Lean string literal. -/
def strOf (s : String) : Str := s.data

/-- Concatenation of the lists produced per element, in order: the shape of a
Python loop that appends blocks to an accumulator list. -/
def catMap (f : α → List β) : List α → List β
  | [] => []
  | x :: xs => f x ++ catMap f xs

/-- Python `str.strip()`: drop whitespace from both ends. -/
def pyStrip (l : Str) : Str :=
  ((l.dropWhile Char.isWhitespace).reverse.dropWhile Char.isWhitespace).reverse

/-- Character scan removing HTML tags: the flag records whether the scan is
inside an angle-bracketed tag, whose characters are dropped. -/
def stripTagsAux : Bool → Str → Str
  | _, [] => []
  | true, c :: rest =>
    if c = '>' then stripTagsAux false rest else stripTagsAux true rest
  | false, c :: rest =>
    if c = '<' then stripTagsAux true rest else c :: stripTagsAux false rest

/-- Remove HTML tags: models `BeautifulSoup(text, 'html.parser').get_text()`
for markup input, dropping every span between an opening and closing angle
bracket and keeping the remaining text. -/
def stripTags (l : Str) : Str := stripTagsAux false l

/-- Word accumulator for `splitWS`: the first argument is the reversed
current word. -/
def splitWSAux : Str → Str → List Str
  | cur, [] => if cur = [] then [] else [cur.reverse]
  | cur, c :: rest =>
    if c.isWhitespace then
      if cur = [] then splitWSAux [] rest else cur.reverse :: splitWSAux [] rest
    else splitWSAux (c :: cur) rest

/-- Python `str.split()` with no argument: split on whitespace runs,
discarding empty pieces. -/
def splitWS (l : Str) : List Str := splitWSAux [] l

/-- `NewsScrapers._clean_html`: empty in, empty out; otherwise strip tags,
collapse whitespace runs to single spaces (`' '.join(text.split())`) and
strip the ends. -/
def clean_html (text : Str) : Str :=
  if text = [] then []
  else pyStrip (List.intercalate [' '] (splitWS (stripTags text)))

/-- Python `s.rsplit(' ', 1)[0]`: everything before the last space, or the
whole string when it holds no space. -/
def beforeLastSpace : Str → Str
  | [] => []
  | c :: rest =>
    if ' ' ∈ rest then c :: beforeLastSpace rest
    else if c = ' ' then []
    else c :: rest

/-- `NewsScrapers._truncate`: texts no longer than the bound pass through;
longer ones are cut to the bound, broken at the last space, with an ellipsis
appended. -/
def truncate (text : Str) (n : Nat) : Str :=
  if text = [] ∨ text.length ≤ n then text
  else beforeLastSpace (text.take n) ++ strOf "..."

/-- A raw feedparser entry: string fields default to empty, the two structured
timestamps are optional, timestamps are modelled as integers (seconds). -/
structure RawEntry where
  title : Str
  link : Str
  summary : Str
  description : Str
  published_parsed : Option Int
  updated_parsed : Option Int
  published : Str
deriving DecidableEq

/-- A normalized headline record (`{'title': …, 'url': …, 'summary': …}`). -/
structure Headline where
  title : Str
  url : Str
  summary : Str
deriving DecidableEq

/-- `NewsScrapers._entry_to_headline`: strip the raw title and link, skip the
entry when the stripped title is empty, otherwise build the headline from the
HTML-cleaned title; the summary falls back from `summary` to `description`
and is cleaned and truncated to 200 characters when present. -/
def entry_to_headline (e : RawEntry) (include_summary : Bool) : Option Headline :=
  let title := pyStrip e.title
  let link := pyStrip e.link
  if title = [] then none
  else
    let base : Headline := ⟨clean_html title, link, []⟩
    if include_summary then
      let s := if e.summary ≠ [] then e.summary else e.description
      if s ≠ [] then some { base with summary := truncate (clean_html s) 200 }
      else some base
    else some base

/-- Result of `feedparser.parse`: a bozo flag and the entry list. -/
structure ParsedFeed where
  bozo : Bool
  entries : List RawEntry
deriving DecidableEq

/-- Outcome of calling the feed library on a URL: a parsed feed, or a raised
exception carrying a message. -/
inductive FetchOutcome where
  | ok (feed : ParsedFeed)
  | exn (msg : Str)
deriving DecidableEq

/-- `NewsScrapers._parse_feed`: an exception is caught and yields the empty
list; a fatal parse (bozo with zero entries) yields the empty list; otherwise
the first `maxItems` entries in feed order. -/
def parse_feed (fetch : Str → FetchOutcome) (url : Str) (maxItems : Nat) :
    List RawEntry :=
  match fetch url with
  | FetchOutcome.exn _ => []
  | FetchOutcome.ok feed =>
    if feed.bozo = true ∧ feed.entries = [] then []
    else feed.entries.take maxItems

/-- `NewsScrapers._parse_date`: structured publish time, else structured
update time, else the textual date handed to the RFC-822 parser
(`email.utils.parsedate_tz`, modelled by the `parseTextual` argument);
a missing or empty textual date yields nothing. -/
def parse_date (parseTextual : Str → Option Int) (e : RawEntry) : Option Int :=
  match e.published_parsed with
  | some d => some d
  | none =>
    match e.updated_parsed with
    | some d => some d
    | none => if e.published = [] then none else parseTextual e.published

/-- Body of the per-entry loop of `NewsScrapers.fetch_substacks`: keep the
entry when its date parses, is strictly after the cutoff and its stripped
title is non-empty; the kept headline gets an `@username: ` tag and a
`Posted <date>` summary (`fmt` models `strftime`). -/
def substackEntryToHeadline (parseTextual : Str → Option Int)
    (fmt : Int → Str) (cutoff : Int) (username : Str) (e : RawEntry) :
    Option Headline :=
  match parse_date parseTextual e with
  | none => none
  | some d =>
    if d > cutoff then
      let title := pyStrip e.title
      if title ≠ [] then
        some ⟨strOf "@" ++ username ++ strOf ": " ++ title,
          pyStrip e.link, strOf "Posted " ++ fmt d⟩
      else none
    else none

/-- `NewsScrapers.fetch_substacks`: cutoff is now minus the window in hours;
each account's feed is scanned in order and the qualifying entries collected. -/
def fetch_substacks (feedOf : Str → List RawEntry)
    (parseTextual : Str → Option Int) (fmt : Int → Str)
    (usernames : List Str) (now : Int) (hours : Int) : List Headline :=
  catMap (fun u =>
    (feedOf u).filterMap (substackEntryToHeadline parseTextual fmt
      (now - hours * 3600) u)) usernames

/-- Body of the per-entry loop of `NewsScrapers.fetch_podcasts`: keep the
entry when its date parses, is strictly after the cutoff and its stripped
title is non-empty; the kept headline gets a `<podcast>: ` tag and a
`Published <date>` summary. -/
def podcastEntryToHeadline (parseTextual : Str → Option Int)
    (fmt : Int → Str) (cutoff : Int) (podcastName : Str) (e : RawEntry) :
    Option Headline :=
  match parse_date parseTextual e with
  | none => none
  | some d =>
    if d > cutoff then
      let title := pyStrip e.title
      if title ≠ [] then
        some ⟨podcastName ++ strOf ": " ++ title,
          pyStrip e.link, strOf "Published " ++ fmt d⟩
      else none
    else none

/-- `NewsScrapers.fetch_podcasts`: cutoff is now minus the window in hours;
each configured feed is scanned in order and the qualifying entries
collected. -/
def fetch_podcasts (feedOf : Str → List RawEntry)
    (parseTextual : Str → Option Int) (fmt : Int → Str)
    (feeds : List (Str × Str)) (now : Int) (hours : Int) : List Headline :=
  catMap (fun p =>
    (feedOf p.2).filterMap (podcastEntryToHeadline parseTextual fmt
      (now - hours * 3600) p.1)) feeds

/-! ## email_sender.py: the digest renderer -/

/-- A section mapping: ordered association of section name to headlines,
mirroring a Python dict in insertion order. -/
abbrev Sections := List (Str × List Headline)

/-- The digest: ordered association of source name to section mapping. -/
abbrev Digest := List (Str × Sections)

/-- First-match association lookup, the semantics of `source in all_headlines`
/ `all_headlines[source]` on a Python dict. -/
def lookupSource (d : Digest) (s : Str) : Option Sections :=
  match d with
  | [] => none
  | (k, v) :: rest => if k = s then some v else lookupSource rest s

/-- The fixed source display order of `format_email_body`. -/
def sourceOrder : List Str :=
  [strOf "NEW YORK TIMES", strOf "LA PRESSE", strOf "GLOBE AND MAIL",
   strOf "AXIOS", strOf "SUBSTACK", strOf "PODCASTS"]

/-- The two always-shown sources. -/
def alwaysShow : List Str := [strOf "SUBSTACK", strOf "PODCASTS"]

/-- `any(headlines for headlines in sections.values() if headlines)`. -/
def hasContent (secs : Sections) : Bool :=
  secs.any fun p => ¬ p.2.isEmpty

/-- The empty-state sentence chosen per always-show source. -/
def emptyMsg (src : Str) : Str :=
  if src = strOf "SUBSTACK" then strOf "No new posts in the last 24 hours"
  else strOf "No new episodes in the last 48 hours"

/-- Plain-text lines appended for one headline: skip when the title is empty,
otherwise a bullet line, a URL line when a URL is present, and a summary line
when a summary is present. -/
def headlineTextLines (h : Headline) : List Str :=
  if h.title = [] then []
  else (if h.url ≠ [] then [strOf "  - " ++ h.title, strOf "    " ++ h.url]
        else [strOf "  - " ++ h.title])
    ++ (if h.summary ≠ [] then [strOf "    " ++ h.summary] else [])

/-- HTML parts appended for one headline: skip when the title is empty,
otherwise a list item holding a link or bold title and an optional summary
span. -/
def headlineHtmlLines (h : Headline) : List Str :=
  if h.title = [] then []
  else [strOf "<li style=\"margin-bottom: 15px; padding-left: 15px; border-left: 3px solid #ddd;\">"]
    ++ (if h.url ≠ [] then
          [strOf "<a href=\"" ++ h.url ++ strOf "\" style=\"color: #0066cc; text-decoration: none; font-weight: bold;\">" ++ h.title ++ strOf "</a>"]
        else [strOf "<strong>" ++ h.title ++ strOf "</strong>"])
    ++ (if h.summary ≠ [] then
          [strOf "<br><span style=\"color: #666; font-size: 14px;\">" ++ h.summary ++ strOf "</span>"]
        else [])
    ++ [strOf "</li>"]

/-- Plain-text lines for one section: skipped when it has no headlines; a
sub-header only when the source has several sections. -/
def sectionTextLines (multi : Bool) (sec : Str × List Headline) : List Str :=
  if sec.2.isEmpty then []
  else (if multi then [strOf "\n  " ++ sec.1 ++ strOf ":"] else [])
    ++ catMap headlineTextLines sec.2

/-- HTML parts for one section: skipped when it has no headlines; a
sub-header only when the source has several sections, then an unordered
list wrapping the headlines. -/
def sectionHtmlLines (multi : Bool) (sec : Str × List Headline) : List Str :=
  if sec.2.isEmpty then []
  else (if multi then
          [strOf "<h3 style=\"color: #555; font-size: 14px; margin: 15px 0 10px 0;\">" ++ sec.1 ++ strOf "</h3>"]
        else [])
    ++ [strOf "<ul style=\"list-style: none; padding: 0; margin: 0;\">"]
    ++ catMap headlineHtmlLines sec.2
    ++ [strOf "</ul>"]

/-- The opening `<h2>` header line for a source. -/
def h2Line (src : Str) : Str :=
  strOf "<h2 style=\"color: #1a1a1a; margin-top: 30px; font-size: 18px; text-transform: uppercase; letter-spacing: 1px;\">" ++ src ++ strOf "</h2>"

/-- The italic empty-state paragraph for a source. -/
def emptyPLine (src : Str) : Str :=
  strOf "<p style=\"color: #888; font-style: italic; margin-left: 15px;\">" ++ emptyMsg src ++ strOf "</p>"

/-- Plain-text lines of one source block: nothing when the source is absent
or empty and not always-shown; otherwise its header and underline, then
either the empty-state sentence or its sections followed by a blank line. -/
def sourceTextBlock (d : Digest) (src : Str) : List Str :=
  match lookupSource d src with
  | none => []
  | some secs =>
    if ¬ hasContent secs ∧ src ∉ alwaysShow then []
    else
      [('\n' :: src), List.replicate src.length '-']
      ++ (if ¬ hasContent secs then [strOf "  " ++ emptyMsg src]
          else catMap (sectionTextLines (decide (secs.length > 1))) secs ++ [([] : Str)])

/-- HTML parts of one source block: nothing when the source is absent or
empty and not always-shown; otherwise its `<h2>` header, then either the
empty-state paragraph or its sections. -/
def sourceHtmlBlock (d : Digest) (src : Str) : List Str :=
  match lookupSource d src with
  | none => []
  | some secs =>
    if ¬ hasContent secs ∧ src ∉ alwaysShow then []
    else
      [h2Line src]
      ++ (if ¬ hasContent secs then [emptyPLine src]
          else catMap (sectionHtmlLines (decide (secs.length > 1))) secs)

/-- Plain-text preamble: digest title with date, separator, blank line. -/
def textPreamble (dateStr : Str) : List Str :=
  [strOf "DAILY NEWS DIGEST - " ++ dateStr, List.replicate 50 '=', ([] : Str)]

/-- Plain-text footer: separator and attribution line. -/
def textFooter : List Str :=
  [('\n' :: List.replicate 50 '='), strOf "Delivered by Daily News Digest"]

/-- HTML preamble: body opener, `<h1>` title, date paragraph. -/
def htmlPreamble (dateStr : Str) : List Str :=
  [strOf "<html><body style=\"font-family: Georgia, serif; max-width: 600px; margin: 0 auto; padding: 20px;\">",
   strOf "<h1 style=\"color: #333; border-bottom: 2px solid #333; padding-bottom: 10px;\">Daily News Digest</h1>",
   strOf "<p style=\"color: #666; margin-bottom: 30px;\">" ++ dateStr ++ strOf "</p>"]

/-- HTML footer: horizontal rule, attribution paragraph, body closer. -/
def htmlFooter : List Str :=
  [strOf "<hr style=\"margin-top: 40px; border: none; border-top: 1px solid #ddd;\">",
   strOf "<p style=\"color: #999; font-size: 12px; text-align: center;\">Delivered by Daily News Digest</p>",
   strOf "</body></html>"]

/-- `EmailSender.format_email_body`: the pair of the plain-text line list and
the HTML part list built by the single loop over the fixed source order (the
code returns each joined with a newline; the current date string is the
`datetime.now` value formatted in the Istanbul timezone, passed here as a
parameter). -/
def format_email_body (d : Digest) (dateStr : Str) : List Str × List Str :=
  (textPreamble dateStr ++ catMap (sourceTextBlock d) sourceOrder ++ textFooter,
   htmlPreamble dateStr ++ catMap (sourceHtmlBlock d) sourceOrder ++ htmlFooter)

/-- `EmailSender.send_daily_digest`: refuses an empty digest, otherwise
formats and sends; `smtpOk` models whether the SMTP transaction (login and
send) succeeds rather than raising. -/
def send_daily_digest (d : Digest) (smtpOk : Bool) : Bool :=
  if d.isEmpty then false else smtpOk

/-! ## main.py: aggregation and the exit signal -/

/-- The digest assembled by `main`: each press source only when its fetch
produced something, Axios wrapped in a synthetic `Top Stories` section, and
the SUBSTACK and PODCASTS keys always present. -/
def buildAllHeadlines (nyt globe lapresse : Sections)
    (axios substackPosts podcastEpisodes : List Headline) : Digest :=
  (if nyt.isEmpty then [] else [(strOf "NEW YORK TIMES", nyt)])
  ++ (if globe.isEmpty then [] else [(strOf "GLOBE AND MAIL", globe)])
  ++ (if lapresse.isEmpty then [] else [(strOf "LA PRESSE", lapresse)])
  ++ (if axios.isEmpty then [] else [(strOf "AXIOS", [(strOf "Top Stories", axios)])])
  ++ [(strOf "SUBSTACK", [(strOf "AI Writers", substackPosts)])]
  ++ [(strOf "PODCASTS", [(strOf "New Episodes", podcastEpisodes)])]

/-- `main`: build the digest from the six fetch results; exit 1 when the
digest dict is empty, otherwise exit 0 exactly when `send_daily_digest`
reports success. -/
def mainRun (nyt globe lapresse : Sections)
    (axios substackPosts podcastEpisodes : List Headline) (smtpOk : Bool) :
    Nat :=
  let all := buildAllHeadlines nyt globe lapresse axios substackPosts podcastEpisodes
  if all.isEmpty then 1
  else if send_daily_digest all smtpOk then 0 else 1

/-! ## Observations on rendered lines

Recognizers for the distinguished line formats of the two outputs, used to
state where source headers and headline bullets occur. -/

/-- Whether a plain-text line is the header line of one of the six sources. -/
def isSrcHeader (l : Str) : Bool :=
  sourceOrder.any fun s => l == ('\n' :: s)

/-- Whether an HTML part is the `<h2>` header of one of the six sources. -/
def isSrcH2 (l : Str) : Bool :=
  sourceOrder.any fun s => l == h2Line s

/-- The title carried by a plain-text bullet line, when the line is one. -/
def bulletTitle (l : Str) : Option Str :=
  if l.take 4 = strOf "  - " then some (l.drop 4) else none

/-- The rendering decision of `format_email_body` for one source: shown when
present in the digest and either holding content or always-shown. -/
def shownSource (d : Digest) (src : Str) : Bool :=
  match lookupSource d src with
  | none => false
  | some secs => hasContent secs || decide (src ∈ alwaysShow)

/-- The titles a source contributes to the rendered output, in the stored
(source-declared) order: nothing when the source is skipped or empty,
otherwise the non-empty titles of each section in sequence. -/
def renderedTitles (d : Digest) (src : Str) : List Str :=
  match lookupSource d src with
  | none => []
  | some secs =>
    if ¬ hasContent secs ∧ src ∉ alwaysShow then []
    else if ¬ hasContent secs then []
    else catMap (fun sec =>
      (sec.2.filter fun h => decide (h.title ≠ [])).map Headline.title) secs

/-! ## The one-traversal skeleton (spec-side, for the refinement claim)

Modelled from the spec: "Two parallel representations are produced in
lock-step from the same traversal … they are two renderings of one
traversal, never independently derived."  The traversal records every
decision once — which sources render, the empty-state message, the
multi-section flag, which sections render and which headlines survive —
and each output is a pure rendering of that record. -/

/-- What one rendered source shows: its empty-state message, or its
multi-section flag together with the surviving sections and headlines. -/
inductive SrcRender where
  | emptyState (msg : Str)
  | withSections (multi : Bool) (secs : Sections)
deriving DecidableEq

/-- The per-source decision of the traversal. -/
def traverseDecision (d : Digest) (src : Str) : Option (Str × SrcRender) :=
  match lookupSource d src with
  | none => none
  | some secs =>
    if ¬ hasContent secs ∧ src ∉ alwaysShow then none
    else if ¬ hasContent secs then some (src, SrcRender.emptyState (emptyMsg src))
    else some (src, SrcRender.withSections (decide (secs.length > 1))
      (secs.filterMap fun sec =>
        if sec.2.isEmpty then none
        else some (sec.1, sec.2.filter fun h => decide (h.title ≠ []))))

/-- The shared traversal: the decisions for the six sources in fixed order. -/
def digestTraversal (d : Digest) : List (Str × SrcRender) :=
  sourceOrder.filterMap (traverseDecision d)

/-- Plain-text lines of one already-accepted headline (no further skip
decision). -/
def plainHeadlineText (h : Headline) : List Str :=
  (if h.url ≠ [] then [strOf "  - " ++ h.title, strOf "    " ++ h.url]
   else [strOf "  - " ++ h.title])
  ++ (if h.summary ≠ [] then [strOf "    " ++ h.summary] else [])

/-- HTML parts of one already-accepted headline (no further skip decision). -/
def plainHeadlineHtml (h : Headline) : List Str :=
  [strOf "<li style=\"margin-bottom: 15px; padding-left: 15px; border-left: 3px solid #ddd;\">"]
  ++ (if h.url ≠ [] then
        [strOf "<a href=\"" ++ h.url ++ strOf "\" style=\"color: #0066cc; text-decoration: none; font-weight: bold;\">" ++ h.title ++ strOf "</a>"]
      else [strOf "<strong>" ++ h.title ++ strOf "</strong>"])
  ++ (if h.summary ≠ [] then
        [strOf "<br><span style=\"color: #666; font-size: 14px;\">" ++ h.summary ++ strOf "</span>"]
      else [])
  ++ [strOf "</li>"]

/-- Plain-text rendering of one traversal item. -/
def renderTextItem : Str × SrcRender → List Str
  | (src, SrcRender.emptyState msg) =>
    [('\n' :: src), List.replicate src.length '-', strOf "  " ++ msg]
  | (src, SrcRender.withSections multi secs) =>
    [('\n' :: src), List.replicate src.length '-']
    ++ catMap (fun sec =>
        (if multi then [strOf "\n  " ++ sec.1 ++ strOf ":"] else [])
        ++ catMap plainHeadlineText sec.2) secs
    ++ [([] : Str)]

/-- HTML rendering of one traversal item. -/
def renderHtmlItem : Str × SrcRender → List Str
  | (src, SrcRender.emptyState msg) =>
    [h2Line src,
     strOf "<p style=\"color: #888; font-style: italic; margin-left: 15px;\">" ++ msg ++ strOf "</p>"]
  | (src, SrcRender.withSections multi secs) =>
    [h2Line src]
    ++ catMap (fun sec =>
        (if multi then
          [strOf "<h3 style=\"color: #555; font-size: 14px; margin: 15px 0 10px 0;\">" ++ sec.1 ++ strOf "</h3>"]
         else [])
        ++ [strOf "<ul style=\"list-style: none; padding: 0; margin: 0;\">"]
        ++ catMap plainHeadlineHtml sec.2
        ++ [strOf "</ul>"]) secs

/-! ## Generic list lemmas -/

theorem catMap_nil (f : α → List β) : catMap f [] = [] := rfl

theorem catMap_cons (f : α → List β) (x : α) (xs : List α) :
    catMap f (x :: xs) = f x ++ catMap f xs := rfl

theorem catMap_append (f : α → List β) (l₁ l₂ : List α) :
    catMap f (l₁ ++ l₂) = catMap f l₁ ++ catMap f l₂ := by
  induction l₁ with
  | nil => rfl
  | cons x xs ih => simp [catMap_cons, ih, List.append_assoc]

theorem catMap_filter (f : α → List β) (p : β → Bool) (l : List α) :
    (catMap f l).filter p = catMap (fun x => (f x).filter p) l := by
  induction l with
  | nil => rfl
  | cons x xs ih => simp [catMap_cons, List.filter_append, ih]

theorem catMap_filterMap (f : α → List β) (g : β → Option γ) (l : List α) :
    (catMap f l).filterMap g = catMap (fun x => (f x).filterMap g) l := by
  induction l with
  | nil => rfl
  | cons x xs ih => simp [catMap_cons, List.filterMap_append, ih]

theorem catMap_congr {f g : α → List β} {l : List α}
    (h : ∀ x ∈ l, f x = g x) : catMap f l = catMap g l := by
  induction l with
  | nil => rfl
  | cons x xs ih =>
    simp only [catMap_cons]
    rw [h x (List.mem_cons_self x xs), ih fun y hy => h y (List.mem_cons_of_mem x hy)]

theorem mem_catMap {f : α → List β} {l : List α} {b : β} :
    b ∈ catMap f l ↔ ∃ x ∈ l, b ∈ f x := by
  induction l with
  | nil => simp [catMap_nil]
  | cons x xs ih => simp [catMap_cons, ih]

theorem ne_of_beqFalse {α} [BEq α] [LawfulBEq α] {a b : α}
    (h : (a == b) = false) : a ≠ b :=
  fun he => by subst he; simp at h

/-! ## Line-shape facts: which rendered lines are source headers, `<h2>`
headers, or bullet lines.  Each is a pure computation on the concrete
line prefix, independent of the embedded content. -/

theorem isSrcHeader_bullet (x : Str) : isSrcHeader (strOf "  - " ++ x) = false := rfl

theorem isSrcHeader_indent (x : Str) : isSrcHeader (strOf "    " ++ x) = false := rfl

theorem isSrcHeader_twoSpace (x : Str) : isSrcHeader (strOf "  " ++ x) = false := rfl

theorem isSrcHeader_secHeader (x : Str) :
    isSrcHeader (strOf "\n  " ++ x ++ strOf ":") = false := rfl

theorem isSrcHeader_nil : isSrcHeader [] = false := rfl

theorem isSrcHeader_preTitle (x : Str) :
    isSrcHeader (strOf "DAILY NEWS DIGEST - " ++ x) = false := rfl

theorem isSrcHeader_preSep : isSrcHeader (List.replicate 50 '=') = false := rfl

theorem isSrcHeader_footSep : isSrcHeader ('\n' :: List.replicate 50 '=') = false := rfl

theorem isSrcHeader_footLine :
    isSrcHeader (strOf "Delivered by Daily News Digest") = false := rfl

theorem isSrcH2_li :
    isSrcH2 (strOf "<li style=\"margin-bottom: 15px; padding-left: 15px; border-left: 3px solid #ddd;\">") = false := rfl

theorem isSrcH2_anchor (x y : Str) :
    isSrcH2 (strOf "<a href=\"" ++ x ++ strOf "\" style=\"color: #0066cc; text-decoration: none; font-weight: bold;\">" ++ y ++ strOf "</a>") = false := rfl

theorem isSrcH2_strong (x : Str) :
    isSrcH2 (strOf "<strong>" ++ x ++ strOf "</strong>") = false := rfl

theorem isSrcH2_span (x : Str) :
    isSrcH2 (strOf "<br><span style=\"color: #666; font-size: 14px;\">" ++ x ++ strOf "</span>") = false := rfl

theorem isSrcH2_closeLi : isSrcH2 (strOf "</li>") = false := rfl

theorem isSrcH2_h3 (x : Str) :
    isSrcH2 (strOf "<h3 style=\"color: #555; font-size: 14px; margin: 15px 0 10px 0;\">" ++ x ++ strOf "</h3>") = false := rfl

theorem isSrcH2_ul :
    isSrcH2 (strOf "<ul style=\"list-style: none; padding: 0; margin: 0;\">") = false := rfl

theorem isSrcH2_closeUl : isSrcH2 (strOf "</ul>") = false := rfl

theorem isSrcH2_emptyP (src : Str) : isSrcH2 (emptyPLine src) = false := rfl

theorem isSrcH2_emptyP' (x : Str) :
    isSrcH2 (strOf "<p style=\"color: #888; font-style: italic; margin-left: 15px;\">" ++ x ++ strOf "</p>") = false := rfl

theorem isSrcH2_body :
    isSrcH2 (strOf "<html><body style=\"font-family: Georgia, serif; max-width: 600px; margin: 0 auto; padding: 20px;\">") = false := rfl

theorem isSrcH2_h1 :
    isSrcH2 (strOf "<h1 style=\"color: #333; border-bottom: 2px solid #333; padding-bottom: 10px;\">Daily News Digest</h1>") = false := rfl

theorem isSrcH2_dateP (x : Str) :
    isSrcH2 (strOf "<p style=\"color: #666; margin-bottom: 30px;\">" ++ x ++ strOf "</p>") = false := rfl

theorem isSrcH2_hr :
    isSrcH2 (strOf "<hr style=\"margin-top: 40px; border: none; border-top: 1px solid #ddd;\">") = false := rfl

theorem isSrcH2_footP :
    isSrcH2 (strOf "<p style=\"color: #999; font-size: 12px; text-align: center;\">Delivered by Daily News Digest</p>") = false := rfl

theorem isSrcH2_closeBody : isSrcH2 (strOf "</body></html>") = false := rfl

theorem bulletTitle_bullet (x : Str) : bulletTitle (strOf "  - " ++ x) = some x := rfl

theorem bulletTitle_indent (x : Str) : bulletTitle (strOf "    " ++ x) = none := rfl

theorem bulletTitle_newline (x : Str) : bulletTitle ('\n' :: x) = none := rfl

theorem bulletTitle_secHeader (x : Str) :
    bulletTitle (strOf "\n  " ++ x ++ strOf ":") = none := rfl

theorem bulletTitle_nil : bulletTitle [] = none := rfl

theorem bulletTitle_preTitle (x : Str) :
    bulletTitle (strOf "DAILY NEWS DIGEST - " ++ x) = none := rfl

theorem bulletTitle_preSep : bulletTitle (List.replicate 50 '=') = none := rfl

theorem bulletTitle_footSep : bulletTitle ('\n' :: List.replicate 50 '=') = none := rfl

theorem bulletTitle_footLine :
    bulletTitle (strOf "Delivered by Daily News Digest") = none := rfl

theorem bulletTitle_emptyState (src : Str) :
    bulletTitle (strOf "  " ++ emptyMsg src) = none := by
  unfold emptyMsg
  split <;> rfl

theorem headlineTextLines_filter (h : Headline) :
    (headlineTextLines h).filter isSrcHeader = [] := by
  unfold headlineTextLines
  split
  · rfl
  · split <;> split <;>
      simp [List.filter_append, List.filter, isSrcHeader_bullet, isSrcHeader_indent]

theorem sectionTextLines_filter (m : Bool) (sec : Str × List Headline) :
    (sectionTextLines m sec).filter isSrcHeader = [] := by
  unfold sectionTextLines
  split
  · rfl
  · rw [List.filter_append, catMap_filter]
    have : catMap (fun h => (headlineTextLines h).filter isSrcHeader) sec.2 = catMap (fun _ => []) sec.2 :=
      catMap_congr fun h _ => headlineTextLines_filter h
    rw [this]
    have : catMap (fun _ => ([] : List Str)) sec.2 = [] := by
      induction sec.2 with
      | nil => rfl
      | cons a l ih => simp [catMap_cons, ih]
    rw [this]
    have hs : isSrcHeader (strOf "\n  " ++ (sec.1 ++ strOf ":")) = false := rfl
    split <;> simp [List.filter, hs]

theorem catMap_const_nil (l : List α) : catMap (fun _ => ([] : List β)) l = [] := by
  induction l with
  | nil => rfl
  | cons a l ih => simp [catMap_cons, ih]

theorem sourceTextBlock_filter (d : Digest) (src : Str)
    (h1 : isSrcHeader ('\n' :: src) = true)
    (h2 : isSrcHeader (List.replicate src.length '-') = false) :
    (sourceTextBlock d src).filter isSrcHeader
      = if shownSource d src = true then ['\n' :: src] else [] := by
  unfold sourceTextBlock shownSource
  cases hl : lookupSource d src with
  | none => rfl
  | some secs =>
    by_cases hc : hasContent secs = true
    · have hrest : (catMap (sectionTextLines (decide (secs.length > 1))) secs ++ [([] : Str)]).filter isSrcHeader = [] := by
        rw [List.filter_append, catMap_filter,
          catMap_congr fun sec _ => sectionTextLines_filter (decide (secs.length > 1)) sec,
          catMap_const_nil]
        simp [List.filter, isSrcHeader_nil]
      simp [hc, List.filter, h1, h2, hrest]
    · have hc' : hasContent secs = false := Bool.eq_false_iff.mpr hc
      by_cases ha : src ∈ alwaysShow
      · simp [hc, hc', ha, List.filter, h1, h2, isSrcHeader_twoSpace]
      · simp [hc, hc', ha, List.filter]

theorem catMap_sourceTextBlock_filter (d : Digest) (l : List Str)
    (H : ∀ src ∈ l, isSrcHeader ('\n' :: src) = true ∧
      isSrcHeader (List.replicate src.length '-') = false) :
    (catMap (sourceTextBlock d) l).filter isSrcHeader
      = (l.filter (shownSource d)).map (fun s => '\n' :: s) := by
  induction l with
  | nil => rfl
  | cons x xs ih =>
    have hx := H x (List.mem_cons_self x xs)
    rw [catMap_cons, List.filter_append,
      sourceTextBlock_filter d x hx.1 hx.2,
      ih fun y hy => H y (List.mem_cons_of_mem x hy)]
    by_cases hs : shownSource d x = true
    · simp [List.filter, hs]
    · simp [List.filter, Bool.eq_false_iff.mpr hs]

theorem text_filter_isSrcHeader (d : Digest) (ds : Str) :
    (format_email_body d ds).1.filter isSrcHeader
      = (sourceOrder.filter (shownSource d)).map (fun s => '\n' :: s) := by
  have hpre : (textPreamble ds).filter isSrcHeader = [] := by
    simp only [textPreamble, List.filter, isSrcHeader_preTitle, isSrcHeader_preSep,
      isSrcHeader_nil]
  have hfoot : textFooter.filter isSrcHeader = [] := by
    simp only [textFooter, List.filter, isSrcHeader_footSep, isSrcHeader_footLine]
  have H : ∀ src ∈ sourceOrder, isSrcHeader ('\n' :: src) = true ∧
      isSrcHeader (List.replicate src.length '-') = false := by
    intro src hsrc
    fin_cases hsrc <;> exact ⟨rfl, rfl⟩
  show (textPreamble ds ++ catMap (sourceTextBlock d) sourceOrder ++ textFooter).filter isSrcHeader = _
  rw [List.filter_append, List.filter_append, hpre, hfoot,
    catMap_sourceTextBlock_filter d sourceOrder H]
  simp

theorem isSrcH2_anchorR (x y : Str) :
    isSrcH2 (strOf "<a href=\"" ++ (x ++ (strOf "\" style=\"color: #0066cc; text-decoration: none; font-weight: bold;\">" ++ (y ++ strOf "</a>")))) = false := rfl

theorem isSrcH2_strongR (x : Str) :
    isSrcH2 (strOf "<strong>" ++ (x ++ strOf "</strong>")) = false := rfl

theorem isSrcH2_spanR (x : Str) :
    isSrcH2 (strOf "<br><span style=\"color: #666; font-size: 14px;\">" ++ (x ++ strOf "</span>")) = false := rfl

theorem isSrcH2_h3R (x : Str) :
    isSrcH2 (strOf "<h3 style=\"color: #555; font-size: 14px; margin: 15px 0 10px 0;\">" ++ (x ++ strOf "</h3>")) = false := rfl

theorem headlineHtmlLines_filter (h : Headline) :
    (headlineHtmlLines h).filter isSrcH2 = [] := by
  unfold headlineHtmlLines
  split
  · rfl
  · split <;> split <;>
      simp [List.filter_append, List.filter, isSrcH2_li, isSrcH2_anchor, isSrcH2_anchorR,
        isSrcH2_strong, isSrcH2_strongR, isSrcH2_span, isSrcH2_spanR, isSrcH2_closeLi]

theorem sectionHtmlLines_filter (m : Bool) (sec : Str × List Headline) :
    (sectionHtmlLines m sec).filter isSrcH2 = [] := by
  unfold sectionHtmlLines
  split
  · rfl
  · rw [List.filter_append, List.filter_append, List.filter_append, catMap_filter,
      catMap_congr fun h _ => headlineHtmlLines_filter h, catMap_const_nil]
    split <;>
      simp [List.filter, isSrcH2_h3, isSrcH2_h3R, isSrcH2_ul, isSrcH2_closeUl]

theorem sourceHtmlBlock_filter (d : Digest) (src : Str)
    (h1 : isSrcH2 (h2Line src) = true) :
    (sourceHtmlBlock d src).filter isSrcH2
      = if shownSource d src = true then [h2Line src] else [] := by
  unfold sourceHtmlBlock shownSource
  cases hl : lookupSource d src with
  | none => rfl
  | some secs =>
    by_cases hc : hasContent secs = true
    · have hrest : (catMap (sectionHtmlLines (decide (secs.length > 1))) secs).filter isSrcH2 = [] := by
        rw [catMap_filter,
          catMap_congr fun sec _ => sectionHtmlLines_filter (decide (secs.length > 1)) sec,
          catMap_const_nil]
      simp [hc, List.filter, h1, hrest]
    · have hc' : hasContent secs = false := Bool.eq_false_iff.mpr hc
      by_cases ha : src ∈ alwaysShow
      · simp [hc, hc', ha, List.filter, h1, isSrcH2_emptyP]
      · simp [hc, hc', ha, List.filter]

theorem catMap_sourceHtmlBlock_filter (d : Digest) (l : List Str)
    (H : ∀ src ∈ l, isSrcH2 (h2Line src) = true) :
    (catMap (sourceHtmlBlock d) l).filter isSrcH2
      = (l.filter (shownSource d)).map h2Line := by
  induction l with
  | nil => rfl
  | cons x xs ih =>
    rw [catMap_cons, List.filter_append,
      sourceHtmlBlock_filter d x (H x (List.mem_cons_self x xs)),
      ih fun y hy => H y (List.mem_cons_of_mem x hy)]
    by_cases hs : shownSource d x = true
    · simp [List.filter, hs]
    · simp [List.filter, Bool.eq_false_iff.mpr hs]

theorem html_filter_isSrcH2 (d : Digest) (ds : Str) :
    (format_email_body d ds).2.filter isSrcH2
      = (sourceOrder.filter (shownSource d)).map h2Line := by
  have hpre : (htmlPreamble ds).filter isSrcH2 = [] := by
    simp only [htmlPreamble, List.filter, isSrcH2_body, isSrcH2_h1, isSrcH2_dateP]
  have hfoot : htmlFooter.filter isSrcH2 = [] := by
    simp only [htmlFooter, List.filter, isSrcH2_hr, isSrcH2_footP, isSrcH2_closeBody]
  have H : ∀ src ∈ sourceOrder, isSrcH2 (h2Line src) = true := by
    intro src hsrc
    fin_cases hsrc <;> exact rfl
  show (htmlPreamble ds ++ catMap (sourceHtmlBlock d) sourceOrder ++ htmlFooter).filter isSrcH2 = _
  rw [List.filter_append, List.filter_append, hpre, hfoot,
    catMap_sourceHtmlBlock_filter d sourceOrder H]
  simp

theorem bulletTitle_secHeaderR (x : Str) :
    bulletTitle (strOf "\n  " ++ (x ++ strOf ":")) = none := rfl

theorem headlineTextLines_bullets (h : Headline) :
    (headlineTextLines h).filterMap bulletTitle
      = if h.title = [] then [] else [h.title] := by
  unfold headlineTextLines
  split
  · simp_all
  · rename_i ht
    split <;> split <;>
      simp [List.filterMap_append, List.filterMap, bulletTitle_bullet, bulletTitle_indent, ht]

theorem catMap_bullets (hs : List Headline) :
    catMap (fun h => (headlineTextLines h).filterMap bulletTitle) hs
      = (hs.filter fun h => decide (h.title ≠ [])).map Headline.title := by
  induction hs with
  | nil => rfl
  | cons h t ih =>
    rw [catMap_cons, headlineTextLines_bullets, ih]
    by_cases ht : h.title = [] <;> simp [ht, List.filter]

theorem sectionTextLines_bullets (m : Bool) (sec : Str × List Headline) :
    (sectionTextLines m sec).filterMap bulletTitle
      = (sec.2.filter fun h => decide (h.title ≠ [])).map Headline.title := by
  unfold sectionTextLines
  split
  · rename_i he
    rw [List.isEmpty_iff] at he
    simp [he]
  · rw [List.filterMap_append, catMap_filterMap, catMap_bullets]
    split <;>
      simp [List.filterMap, bulletTitle_secHeader, bulletTitle_secHeaderR]

theorem sourceTextBlock_bullets (d : Digest) (src : Str)
    (hdash : bulletTitle (List.replicate src.length '-') = none) :
    (sourceTextBlock d src).filterMap bulletTitle = renderedTitles d src := by
  unfold sourceTextBlock renderedTitles
  cases hl : lookupSource d src with
  | none => rfl
  | some secs =>
    by_cases hc : hasContent secs = true
    · have hsecs : (catMap (sectionTextLines (decide (secs.length > 1))) secs).filterMap bulletTitle
          = catMap (fun sec => (sec.2.filter fun h => decide (h.title ≠ [])).map Headline.title) secs := by
        rw [catMap_filterMap]
        exact catMap_congr fun sec _ => sectionTextLines_bullets _ sec
      simp [hc, List.filterMap_append, List.filterMap, bulletTitle_newline, hdash,
        bulletTitle_nil, hsecs]
    · have hc' : hasContent secs = false := Bool.eq_false_iff.mpr hc
      by_cases ha : src ∈ alwaysShow
      · simp [hc, hc', ha, List.filterMap, bulletTitle_newline, hdash, bulletTitle_emptyState]
      · simp [hc, hc', ha]

theorem text_bullets (d : Digest) (ds : Str) :
    (format_email_body d ds).1.filterMap bulletTitle
      = catMap (renderedTitles d) sourceOrder := by
  have hpre : (textPreamble ds).filterMap bulletTitle = [] := by
    simp only [textPreamble, List.filterMap, bulletTitle_preTitle, bulletTitle_preSep,
      bulletTitle_nil]
  have hfoot : textFooter.filterMap bulletTitle = [] := by
    simp only [textFooter, List.filterMap, bulletTitle_footSep, bulletTitle_footLine]
  have H : ∀ src ∈ sourceOrder, bulletTitle (List.replicate src.length '-') = none := by
    intro src hsrc
    fin_cases hsrc <;> exact rfl
  show (textPreamble ds ++ catMap (sourceTextBlock d) sourceOrder ++ textFooter).filterMap bulletTitle = _
  rw [List.filterMap_append, List.filterMap_append, hpre, hfoot, catMap_filterMap,
    catMap_congr fun src hsrc => sourceTextBlock_bullets d src (H src hsrc)]
  simp

theorem catMap_headlineText_filtered (hs : List Headline) :
    catMap headlineTextLines hs
      = catMap plainHeadlineText (hs.filter fun h => decide (h.title ≠ [])) := by
  induction hs with
  | nil => rfl
  | cons h t ih =>
    by_cases ht : h.title = []
    · simp [catMap_cons, headlineTextLines, ht, List.filter, ih]
    · simp [catMap_cons, headlineTextLines, plainHeadlineText, ht, List.filter, ih]

theorem catMap_headlineHtml_filtered (hs : List Headline) :
    catMap headlineHtmlLines hs
      = catMap plainHeadlineHtml (hs.filter fun h => decide (h.title ≠ [])) := by
  induction hs with
  | nil => rfl
  | cons h t ih =>
    by_cases ht : h.title = []
    · simp [catMap_cons, headlineHtmlLines, ht, List.filter, ih]
    · simp [catMap_cons, headlineHtmlLines, plainHeadlineHtml, ht, List.filter, ih]

theorem catMap_sectionText_skel (m : Bool) (secs : Sections) :
    catMap (sectionTextLines m) secs
      = catMap (fun sec =>
          (if m then [strOf "\n  " ++ sec.1 ++ strOf ":"] else [])
          ++ catMap plainHeadlineText sec.2)
        (secs.filterMap fun sec =>
          if sec.2.isEmpty then none
          else some (sec.1, sec.2.filter fun h => decide (h.title ≠ []))) := by
  induction secs with
  | nil => rfl
  | cons sec t ih =>
    by_cases he : sec.2.isEmpty
    · have he' : sec.2 = [] := List.isEmpty_iff.mp he
      simp [catMap_cons, sectionTextLines, he, he', List.filterMap_cons, ih]
    · have he' : ¬ sec.2 = [] := fun hcon => he (by simp [hcon])
      simp [catMap_cons, sectionTextLines, he, he', List.filterMap_cons, catMap_cons,
        catMap_headlineText_filtered, ih]

theorem catMap_sectionHtml_skel (m : Bool) (secs : Sections) :
    catMap (sectionHtmlLines m) secs
      = catMap (fun sec =>
          (if m then
            [strOf "<h3 style=\"color: #555; font-size: 14px; margin: 15px 0 10px 0;\">" ++ sec.1 ++ strOf "</h3>"]
           else [])
          ++ [strOf "<ul style=\"list-style: none; padding: 0; margin: 0;\">"]
          ++ catMap plainHeadlineHtml sec.2
          ++ [strOf "</ul>"])
        (secs.filterMap fun sec =>
          if sec.2.isEmpty then none
          else some (sec.1, sec.2.filter fun h => decide (h.title ≠ []))) := by
  induction secs with
  | nil => rfl
  | cons sec t ih =>
    by_cases he : sec.2.isEmpty
    · have he' : sec.2 = [] := List.isEmpty_iff.mp he
      simp [catMap_cons, sectionHtmlLines, he, he', List.filterMap_cons, ih]
    · have he' : ¬ sec.2 = [] := fun hcon => he (by simp [hcon])
      simp [catMap_cons, sectionHtmlLines, he, he', List.filterMap_cons, catMap_cons,
        catMap_headlineHtml_filtered, ih]

theorem sourceTextBlock_skel (d : Digest) (src : Str) :
    sourceTextBlock d src
      = match traverseDecision d src with
        | none => []
        | some item => renderTextItem item := by
  unfold sourceTextBlock traverseDecision
  cases hl : lookupSource d src with
  | none => rfl
  | some secs =>
    by_cases hskip : ¬ hasContent secs = true ∧ src ∉ alwaysShow
    · simp [hskip]
    · by_cases hc : hasContent secs = true
      · simp [hskip, hc, renderTextItem, catMap_sectionText_skel, List.append_assoc]
      · have ha : src ∈ alwaysShow := by
          by_contra hna
          exact hskip ⟨hc, hna⟩
        simp [hskip, hc, ha, renderTextItem]

theorem sourceHtmlBlock_skel (d : Digest) (src : Str) :
    sourceHtmlBlock d src
      = match traverseDecision d src with
        | none => []
        | some item => renderHtmlItem item := by
  unfold sourceHtmlBlock traverseDecision
  cases hl : lookupSource d src with
  | none => rfl
  | some secs =>
    by_cases hskip : ¬ hasContent secs = true ∧ src ∉ alwaysShow
    · simp [hskip]
    · by_cases hc : hasContent secs = true
      · simp [hskip, hc, renderHtmlItem, emptyPLine, h2Line, catMap_sectionHtml_skel,
          List.append_assoc]
      · have ha : src ∈ alwaysShow := by
          by_contra hna
          exact hskip ⟨hc, hna⟩
        simp [hskip, hc, ha, renderHtmlItem, emptyPLine]

theorem catMap_renderText_skel (d : Digest) (l : List Str) :
    catMap (sourceTextBlock d) l
      = catMap renderTextItem (l.filterMap (traverseDecision d)) := by
  induction l with
  | nil => rfl
  | cons x xs ih =>
    rw [catMap_cons, sourceTextBlock_skel d x, List.filterMap_cons, ih]
    cases traverseDecision d x <;> simp [catMap_cons]

theorem catMap_renderHtml_skel (d : Digest) (l : List Str) :
    catMap (sourceHtmlBlock d) l
      = catMap renderHtmlItem (l.filterMap (traverseDecision d)) := by
  induction l with
  | nil => rfl
  | cons x xs ih =>
    rw [catMap_cons, sourceHtmlBlock_skel d x, List.filterMap_cons, ih]
    cases traverseDecision d x <;> simp [catMap_cons]

theorem beforeLastSpace_of_not_mem (l : Str) (h : ' ' ∉ l) : beforeLastSpace l = l := by
  cases l with
  | nil => rfl
  | cons c rest =>
    have hr : ' ' ∉ rest := fun hc => h (List.mem_cons_of_mem c hc)
    have hc : ¬ c = ' ' := fun hc => h (hc ▸ List.mem_cons_self c rest)
    simp [beforeLastSpace, hr, hc]

theorem beforeLastSpace_split (l : Str) (h : ' ' ∈ l) :
    ∃ rest, l = beforeLastSpace l ++ ' ' :: rest ∧ ' ' ∉ rest := by
  induction l with
  | nil => cases h
  | cons c t ih =>
    by_cases hm : ' ' ∈ t
    · obtain ⟨rest, heq, hnm⟩ := ih hm
      refine ⟨rest, ?_, hnm⟩
      simp [beforeLastSpace, hm]
      exact heq
    · have hc : c = ' ' := by
        rcases List.mem_cons.mp h with h1 | h2
        · exact h1.symm
        · exact absurd h2 hm
      refine ⟨t, ?_, hm⟩
      simp [beforeLastSpace, hm, hc]

theorem beforeLastSpace_length_le (l : Str) : (beforeLastSpace l).length ≤ l.length := by
  by_cases h : ' ' ∈ l
  · obtain ⟨rest, heq, -⟩ := beforeLastSpace_split l h
    have hlen := congrArg List.length heq
    simp only [List.length_append, List.length_cons] at hlen
    omega
  · rw [beforeLastSpace_of_not_mem l h]

theorem hasContent_false_of_all_empty (secs : Sections) (h : ∀ p ∈ secs, p.2 = []) :
    hasContent secs = false := by
  unfold hasContent
  rw [List.any_eq_false]
  intro p hp
  simp [h p hp]

theorem sourceTextBlock_emptyAlways (d : Digest) (src : Str) (secs : Sections)
    (hmem : src ∈ alwaysShow) (hl : lookupSource d src = some secs)
    (hc : hasContent secs = false) :
    sourceTextBlock d src
      = [('\n' :: src), List.replicate src.length '-', strOf "  " ++ emptyMsg src] := by
  unfold sourceTextBlock
  rw [hl]
  simp [hc, hmem]

theorem sourceHtmlBlock_emptyAlways (d : Digest) (src : Str) (secs : Sections)
    (hmem : src ∈ alwaysShow) (hl : lookupSource d src = some secs)
    (hc : hasContent secs = false) :
    sourceHtmlBlock d src = [h2Line src, emptyPLine src] := by
  unfold sourceHtmlBlock
  rw [hl]
  simp [hc, hmem]

theorem sourceTextBlock_congr (d₁ d₂ : Digest) (src : Str)
    (h : lookupSource d₁ src = lookupSource d₂ src) :
    sourceTextBlock d₁ src = sourceTextBlock d₂ src := by
  unfold sourceTextBlock
  rw [h]

theorem sourceHtmlBlock_congr (d₁ d₂ : Digest) (src : Str)
    (h : lookupSource d₁ src = lookupSource d₂ src) :
    sourceHtmlBlock d₁ src = sourceHtmlBlock d₂ src := by
  unfold sourceHtmlBlock
  rw [h]

theorem splitWSAux_no_ws (l cur : Str)
    (hcur : ∀ c ∈ cur, c.isWhitespace = false) :
    ∀ w ∈ splitWSAux cur l, ∀ c ∈ w, c.isWhitespace = false := by
  induction l generalizing cur with
  | nil =>
    intro w hw c hc
    unfold splitWSAux at hw
    split at hw
    · cases hw
    · rcases List.mem_singleton.mp hw with rfl
      exact hcur c (List.mem_reverse.mp hc)
  | cons a t ih =>
    intro w hw c hc
    unfold splitWSAux at hw
    split at hw
    · split at hw
      · exact ih [] (by intro c hc'; cases hc') w hw c hc
      · rcases List.mem_cons.mp hw with rfl | hw'
        · exact hcur c (List.mem_reverse.mp hc)
        · exact ih [] (by intro c hc'; cases hc') w hw' c hc
    · rename_i ha
      refine ih (a :: cur) ?_ w hw c hc
      intro c' hc'
      rcases List.mem_cons.mp hc' with rfl | hc''
      · exact Bool.eq_false_iff.mpr ha
      · exact hcur c' hc''

theorem mem_of_mem_intersperse {sep : List α} {l : List (List α)} {x : List α}
    (h : x ∈ List.intersperse sep l) : x = sep ∨ x ∈ l := by
  induction l with
  | nil => cases h
  | cons a t ih =>
    cases t with
    | nil =>
      rcases List.mem_singleton.mp h with rfl
      exact Or.inr (List.mem_singleton.mpr rfl)
    | cons b t' =>
      have hexp : List.intersperse sep (a :: b :: t') = a :: sep :: List.intersperse sep (b :: t') := rfl
      rw [hexp] at h
      rcases List.mem_cons.mp h with rfl | h'
      · exact Or.inr (List.mem_cons_self _ _)
      · rcases List.mem_cons.mp h' with rfl | h''
        · exact Or.inl rfl
        · rcases ih h'' with hs | hm
          · exact Or.inl hs
          · exact Or.inr (List.mem_cons_of_mem _ hm)

theorem mem_of_mem_pyStrip {c : Char} {l : Str} (h : c ∈ pyStrip l) : c ∈ l := by
  unfold pyStrip at h
  rw [List.mem_reverse] at h
  have h1 := (List.dropWhile_sublist _).mem h
  rw [List.mem_reverse] at h1
  exact (List.dropWhile_sublist _).mem h1

theorem clean_html_space_only (t : Str) :
    ∀ c ∈ clean_html t, c.isWhitespace = true → c = ' ' := by
  intro c hc hws
  unfold clean_html at hc
  split at hc
  · cases hc
  · have h1 : c ∈ List.intercalate [' '] (splitWS (stripTags t)) :=
      mem_of_mem_pyStrip hc
    rw [List.intercalate] at h1
    rw [List.mem_flatten] at h1
    obtain ⟨piece, hpiece, hcp⟩ := h1
    rcases mem_of_mem_intersperse hpiece with rfl | hw
    · exact List.mem_singleton.mp hcp
    · have := splitWSAux_no_ws (stripTags t) [] (by intro x hx; cases hx) piece hw c hcp
      rw [hws] at this
      cases this

theorem truncate_length_le (t : Str) : (truncate t 200).length ≤ 203 := by
  unfold truncate
  split
  · rename_i hc
    rcases hc with rfl | hle
    · simp
    · omega
  · rename_i hc
    rw [List.length_append]
    have h1 : (beforeLastSpace (t.take 200)).length ≤ (t.take 200).length :=
      beforeLastSpace_length_le _
    have h2 : (t.take 200).length ≤ 200 := by
      rw [List.length_take]
      exact Nat.min_le_left _ _
    have h3 : (strOf "...").length = 3 := rfl
    omega

/-- C9: rendering is deterministic in the digest and date: two calls of
`format_email_body` on the same digest (at the same instant, hence the same
date string) yield identical (text, html) output pairs. -/
theorem c9_render_idempotent (d₁ d₂ : Digest) (ds₁ ds₂ : Str)
    (hd : d₁ = d₂) (hds : ds₁ = ds₂) :
    format_email_body d₁ ds₁ = format_email_body d₂ ds₂ := by
  rw [hd, hds]

theorem c9_render_idempotent_witness :
    format_email_body [] (strOf "Monday") = format_email_body [] (strOf "Monday") :=
  c9_render_idempotent [] [] (strOf "Monday") (strOf "Monday") rfl rfl

/-- C10: `format_email_body` reads only the six fixed source keys: two
digests whose lookups agree on those keys render identically, so content
stored under any other source name never affects either output. -/
theorem c10_only_six_keys (d₁ d₂ : Digest) (ds : Str)
    (h : ∀ src ∈ sourceOrder, lookupSource d₁ src = lookupSource d₂ src) :
    format_email_body d₁ ds = format_email_body d₂ ds := by
  unfold format_email_body
  rw [catMap_congr fun src hs => sourceTextBlock_congr d₁ d₂ src (h src hs),
    catMap_congr fun src hs => sourceHtmlBlock_congr d₁ d₂ src (h src hs)]

theorem c10_only_six_keys_witness :
    format_email_body
      [(strOf "INJECTED SOURCE", [(strOf "X", [⟨strOf "t", strOf "u", strOf "s"⟩])])]
      (strOf "Monday")
      = format_email_body [] (strOf "Monday") :=
  c10_only_six_keys _ _ _ (by decide)

/-- C5: `_parse_feed` never propagates a fetch/parse outcome to its caller:
an exception yields the empty list, a fatal parse (bozo with zero entries)
yields the empty list, any other outcome yields the first at most `n`
entries in feed-declared order, so the result always has length at most
`n` and a partial result (bozo flag with entries) counts as success. -/
theorem c5_parse_feed_isolation (fetch : Str → FetchOutcome) (url : Str) (n : Nat) :
    (parse_feed fetch url n).length ≤ n
    ∧ (∀ msg, fetch url = FetchOutcome.exn msg → parse_feed fetch url n = [])
    ∧ (∀ feed, fetch url = FetchOutcome.ok feed → feed.bozo = true →
        feed.entries = [] → parse_feed fetch url n = [])
    ∧ (∀ feed, fetch url = FetchOutcome.ok feed →
        ¬ (feed.bozo = true ∧ feed.entries = []) →
        parse_feed fetch url n = feed.entries.take n) := by
  refine ⟨?_, ?_, ?_, ?_⟩
  · unfold parse_feed
    cases hfu : fetch url with
    | exn msg => exact Nat.zero_le n
    | ok feed =>
      show (if feed.bozo = true ∧ feed.entries = [] then []
        else List.take n feed.entries).length ≤ n
      split
      · exact Nat.zero_le n
      · rw [List.length_take]
        exact Nat.min_le_left _ _
  · intro msg hm
    unfold parse_feed
    rw [hm]
  · intro feed hm hb he
    unfold parse_feed
    rw [hm]
    simp [hb, he]
  · intro feed hm hcond
    unfold parse_feed
    rw [hm]
    simp [hcond]

theorem c5_parse_feed_isolation_witness :
    parse_feed (fun _ => FetchOutcome.exn (strOf "boom")) (strOf "u") 3 = []
    ∧ parse_feed (fun _ => FetchOutcome.ok ⟨true, [⟨strOf "T", [], [], [], none, none, []⟩]⟩)
        (strOf "u") 3 = [⟨strOf "T", [], [], [], none, none, []⟩] := by
  constructor
  · exact (c5_parse_feed_isolation (fun _ => FetchOutcome.exn (strOf "boom"))
      (strOf "u") 3).2.1 (strOf "boom") rfl
  · have := (c5_parse_feed_isolation
      (fun _ => FetchOutcome.ok ⟨true, [⟨strOf "T", [], [], [], none, none, []⟩]⟩)
      (strOf "u") 3).2.2.2 ⟨true, [⟨strOf "T", [], [], [], none, none, []⟩]⟩ rfl (by simp)
    simpa using this

/-- C2 counterexample: when every source fetch returns nothing and SMTP
succeeds, the digest dict still holds the two always-present keys, so `main`
attempts delivery and returns the success signal 0, while the claim requires
a run-level failure with no delivery attempted. -/
theorem c2_counterexample :
    buildAllHeadlines [] [] [] [] [] [] ≠ []
    ∧ send_daily_digest (buildAllHeadlines [] [] [] [] [] []) true = true
    ∧ mainRun [] [] [] [] [] [] true = 0 := by decide

/-- C2 amended: the digest built by `main` is never the empty dict (the
SUBSTACK and PODCASTS keys are always inserted), so the zero-headline guard
never fires, delivery is always attempted, and the run returns 0 exactly
when delivery succeeds and 1 exactly when it fails. -/
theorem c2_exit_signal (nyt globe lapresse : Sections)
    (axios sp pe : List Headline) (smtpOk : Bool) :
    buildAllHeadlines nyt globe lapresse axios sp pe ≠ []
    ∧ send_daily_digest (buildAllHeadlines nyt globe lapresse axios sp pe) smtpOk = smtpOk
    ∧ mainRun nyt globe lapresse axios sp pe smtpOk = (if smtpOk then 0 else 1) := by
  have hne : buildAllHeadlines nyt globe lapresse axios sp pe ≠ [] := by
    unfold buildAllHeadlines
    intro h
    simp [List.append_eq_nil] at h
  have hie : (buildAllHeadlines nyt globe lapresse axios sp pe).isEmpty = false := by
    rw [List.isEmpty_eq_false_iff_exists_mem]
    rcases List.exists_mem_of_ne_nil _ hne with ⟨x, hx⟩
    exact ⟨x, hx⟩
  refine ⟨hne, ?_, ?_⟩
  · unfold send_daily_digest
    simp [hie]
  · unfold mainRun send_daily_digest
    simp [hie]

/-- C1 counterexample: the raw title `<b></b>` is non-empty markup-only
text; the normalizer still produces a Headline, and that Headline's title is
the empty string — the emptiness check runs on the whitespace-stripped raw
title before markup stripping. -/
theorem c1_counterexample :
    strOf "<b></b>" ≠ []
    ∧ clean_html (strOf "<b></b>") = []
    ∧ entry_to_headline ⟨strOf "<b></b>", [], [], [], none, none, []⟩ true
        = some ⟨[], [], []⟩ := by decide

/-- C1 amended: an entry whose title is empty after whitespace stripping
produces no Headline; any produced Headline has title equal to the
HTML-cleaned whitespace-stripped raw title, which is non-empty whenever the
raw title holds any non-markup text but is empty for markup-only titles. -/
theorem c1_title_amended (e : RawEntry) (inc : Bool) :
    (pyStrip e.title = [] → entry_to_headline e inc = none)
    ∧ (∀ h, entry_to_headline e inc = some h →
        pyStrip e.title ≠ [] ∧ h.title = clean_html (pyStrip e.title)) := by
  constructor
  · intro ht
    unfold entry_to_headline
    simp [ht]
  · intro h heq
    by_cases ht : pyStrip e.title = []
    · unfold entry_to_headline at heq
      simp [ht] at heq
    · refine ⟨ht, ?_⟩
      unfold entry_to_headline at heq
      simp [ht] at heq
      repeat' split at heq
      all_goals (cases Option.some.inj heq; rfl)

theorem c1_title_amended_witness :
    entry_to_headline ⟨strOf "   ", [], [], [], none, none, []⟩ true = none
    ∧ (pyStrip (strOf "News") ≠ []
        ∧ (⟨strOf "News", [], []⟩ : Headline).title
            = clean_html (pyStrip (strOf "News"))) := by
  constructor
  · exact (c1_title_amended ⟨strOf "   ", [], [], [], none, none, []⟩ true).1 (by decide)
  · exact (c1_title_amended ⟨strOf "News", [], [], [], none, none, []⟩ true).2
      ⟨strOf "News", [], []⟩ (by decide)

/-- C3: every produced Headline has a summary of at most 203 characters
(200 plus the 3-character ellipsis); `_truncate` returns texts of length at
most 200 unchanged, and when it shortens a text it keeps the part of the
first 200 characters before their last space and appends the ellipsis —
splitting a word only when those 200 characters hold no space. -/
theorem c3_truncate_bound (t : Str) (e : RawEntry) (inc : Bool) :
    (t.length ≤ 200 → truncate t 200 = t)
    ∧ (truncate t 200).length ≤ 203
    ∧ (t.length > 200 → ' ' ∈ t.take 200 →
        ∃ pre rest, truncate t 200 = pre ++ strOf "..."
          ∧ t.take 200 = pre ++ ' ' :: rest ∧ ' ' ∉ rest)
    ∧ (t.length > 200 → ' ' ∉ t.take 200 →
        truncate t 200 = t.take 200 ++ strOf "...")
    ∧ (∀ h, entry_to_headline e inc = some h → h.summary.length ≤ 203)
    ∧ (∀ c ∈ clean_html t, c.isWhitespace = true → c = ' ') := by
  refine ⟨?_, ?_, ?_, ?_, ?_, ?_⟩
  · intro hle
    unfold truncate
    rw [if_pos (Or.inr hle)]
  · exact truncate_length_le t
  · intro hgt hmem
    have hcond : ¬ (t = [] ∨ t.length ≤ 200) := by
      rintro (rfl | hle)
      · simp at hgt
      · omega
    refine ⟨beforeLastSpace (t.take 200), ?_⟩
    obtain ⟨rest, heq, hnm⟩ := beforeLastSpace_split (t.take 200) hmem
    refine ⟨rest, ?_, heq, hnm⟩
    unfold truncate
    rw [if_neg hcond]
  · intro hgt hnm
    have hcond : ¬ (t = [] ∨ t.length ≤ 200) := by
      rintro (rfl | hle)
      · simp at hgt
      · omega
    unfold truncate
    rw [if_neg hcond, beforeLastSpace_of_not_mem _ hnm]
  · intro h heq
    unfold entry_to_headline at heq
    by_cases ht : pyStrip e.title = []
    · simp [ht] at heq
    · simp [ht] at heq
      repeat' split at heq
      all_goals (cases Option.some.inj heq; simp)
      all_goals (exact truncate_length_le _)
  · exact clean_html_space_only t

set_option maxRecDepth 20000 in
theorem c3_truncate_bound_witness :
    truncate (strOf "ok") 200 = strOf "ok"
    ∧ (∃ pre rest,
        truncate (List.replicate 100 'a' ++ ' ' :: List.replicate 150 'b') 200
          = pre ++ strOf "..."
        ∧ (List.replicate 100 'a' ++ ' ' :: List.replicate 150 'b').take 200
          = pre ++ ' ' :: rest ∧ ' ' ∉ rest)
    ∧ (⟨strOf "T", [], strOf "s"⟩ : Headline).summary.length ≤ 203 := by
  refine ⟨?_, ?_, ?_⟩
  · exact (c3_truncate_bound (strOf "ok") ⟨[], [], [], [], none, none, []⟩ true).1
      (by decide)
  · exact (c3_truncate_bound (List.replicate 100 'a' ++ ' ' :: List.replicate 150 'b')
      ⟨[], [], [], [], none, none, []⟩ true).2.2.1 (by decide) (by decide)
  · exact (c3_truncate_bound [] ⟨strOf "T", [], strOf "s", [], none, none, []⟩ true).2.2.2.2.1
      ⟨strOf "T", [], strOf "s"⟩ (by decide)

/-- C4 counterexample: an entry with a parsed timestamp strictly after the
cutoff but an empty title is not kept by the substack fetcher, refuting the
claim that an entry is kept whenever its extracted timestamp exists and is
after the cutoff. -/
theorem c4_counterexample :
    parse_date (fun _ => none) ⟨[], [], [], [], some 10, none, []⟩ = some 10
    ∧ ((10 : Int) > 0)
    ∧ substackEntryToHeadline (fun _ => none) (fun _ => [])
        0 (strOf "u") ⟨[], [], [], [], some 10, none, []⟩ = none := by decide

/-- C4 amended: in both recency-filtered fetchers an entry contributes a
headline exactly when its timestamp — extracted by the fallback chain
(structured publish time, else structured update time, else the textual
date handed to the RFC-822 parser) — exists, is strictly after the cutoff
`now − hours·3600`, and additionally its whitespace-stripped title is
non-empty; a timestamp exactly equal to the cutoff, or no parseable
timestamp, excludes the entry. -/
theorem c4_recency_amended (pt : Str → Option Int) (fmt : Int → Str)
    (cutoff : Int) (u : Str) (e : RawEntry) :
    ((substackEntryToHeadline pt fmt cutoff u e).isSome = true
      ↔ ∃ dd, parse_date pt e = some dd ∧ dd > cutoff ∧ pyStrip e.title ≠ [])
    ∧ ((podcastEntryToHeadline pt fmt cutoff u e).isSome = true
      ↔ ∃ dd, parse_date pt e = some dd ∧ dd > cutoff ∧ pyStrip e.title ≠ [])
    ∧ (parse_date pt e = some cutoff →
        substackEntryToHeadline pt fmt cutoff u e = none
        ∧ podcastEntryToHeadline pt fmt cutoff u e = none)
    ∧ (parse_date pt e = none →
        substackEntryToHeadline pt fmt cutoff u e = none
        ∧ podcastEntryToHeadline pt fmt cutoff u e = none)
    ∧ (∀ dd, e.published_parsed = some dd → parse_date pt e = some dd)
    ∧ (e.published_parsed = none → ∀ dd, e.updated_parsed = some dd →
        parse_date pt e = some dd)
    ∧ (e.published_parsed = none → e.updated_parsed = none →
        parse_date pt e = (if e.published = [] then none else pt e.published))
    ∧ (∀ feedOf usernames now hours h,
        h ∈ fetch_substacks feedOf pt fmt usernames now hours
          ↔ ∃ u' ∈ usernames, ∃ e' ∈ feedOf u',
              substackEntryToHeadline pt fmt (now - hours * 3600) u' e' = some h)
    ∧ (∀ feedOf feeds now hours h,
        h ∈ fetch_podcasts feedOf pt fmt feeds now hours
          ↔ ∃ p ∈ feeds, ∃ e' ∈ feedOf (Prod.snd p),
              podcastEntryToHeadline pt fmt (now - hours * 3600) (Prod.fst p) e'
                = some h) := by
  refine ⟨?_, ?_, ?_, ?_, ?_, ?_, ?_, ?_, ?_⟩
  · unfold substackEntryToHeadline
    cases hpd : parse_date pt e with
    | none => simp
    | some dd =>
      by_cases hgt : dd > cutoff
      · by_cases ht : pyStrip e.title = [] <;> simp [hgt, ht]
      · simp [hgt]
  · unfold podcastEntryToHeadline
    cases hpd : parse_date pt e with
    | none => simp
    | some dd =>
      by_cases hgt : dd > cutoff
      · by_cases ht : pyStrip e.title = [] <;> simp [hgt, ht]
      · simp [hgt]
  · intro hpd
    unfold substackEntryToHeadline podcastEntryToHeadline
    rw [hpd]
    simp
  · intro hpd
    unfold substackEntryToHeadline podcastEntryToHeadline
    rw [hpd]
    simp
  · intro dd hdd
    unfold parse_date
    rw [hdd]
  · intro hp dd hdd
    unfold parse_date
    rw [hp, hdd]
  · intro hp hu
    unfold parse_date
    rw [hp, hu]
  · intro feedOf usernames now hours h
    unfold fetch_substacks
    rw [mem_catMap]
    constructor
    · rintro ⟨u', hu', hmem⟩
      exact ⟨u', hu', List.mem_filterMap.mp hmem⟩
    · rintro ⟨u', hu', e', he', heq⟩
      exact ⟨u', hu', List.mem_filterMap.mpr ⟨e', he', heq⟩⟩
  · intro feedOf feeds now hours h
    unfold fetch_podcasts
    rw [mem_catMap]
    constructor
    · rintro ⟨p, hp, hmem⟩
      exact ⟨p, hp, List.mem_filterMap.mp hmem⟩
    · rintro ⟨p, hp, e', he', heq⟩
      exact ⟨p, hp, List.mem_filterMap.mpr ⟨e', he', heq⟩⟩

theorem c4_recency_amended_witness :
    (substackEntryToHeadline (fun _ => none) (fun _ => [])
        0 (strOf "u") ⟨strOf "T", [], [], [], some 10, none, []⟩).isSome = true
    ∧ substackEntryToHeadline (fun _ => none) (fun _ => [])
        10 (strOf "u") ⟨strOf "T", [], [], [], some 10, none, []⟩ = none
    ∧ parse_date (fun _ => none) ⟨strOf "T", [], [], [], some 10, none, []⟩
        = some 10 := by
  refine ⟨?_, ?_, ?_⟩
  · exact (c4_recency_amended (fun _ => none) (fun _ => []) 0 (strOf "u")
      ⟨strOf "T", [], [], [], some 10, none, []⟩).1.mpr ⟨10, rfl, by decide, by decide⟩
  · exact ((c4_recency_amended (fun _ => none) (fun _ => []) 10 (strOf "u")
      ⟨strOf "T", [], [], [], some 10, none, []⟩).2.2.1 rfl).1
  · exact (c4_recency_amended (fun _ => none) (fun _ => []) 0 (strOf "u")
      ⟨strOf "T", [], [], [], some 10, none, []⟩).2.2.2.2.1 10 rfl

theorem lookupSource_append (l₁ l₂ : Digest) (s : Str) :
    lookupSource (l₁ ++ l₂) s
      = match lookupSource l₁ s with
        | some v => some v
        | none => lookupSource l₂ s := by
  induction l₁ with
  | nil => rfl
  | cons p t ih =>
    obtain ⟨k, v⟩ := p
    by_cases hp : k = s
    · simp [lookupSource, hp]
    · simp [lookupSource, hp, ih]

/-- C6: whenever the digest maps SUBSTACK and PODCASTS to section mappings
holding zero headlines, both outputs still carry each of the two source
headers immediately followed by its fixed empty-state sentence; and the
aggregator always stores both keys, even when nothing recent was found. -/
theorem c6_always_show_empty_state (d : Digest) (ds : Str) (ssS ssP : Sections)
    (hS : lookupSource d (strOf "SUBSTACK") = some ssS)
    (hSe : ∀ p ∈ ssS, p.2 = [])
    (hP : lookupSource d (strOf "PODCASTS") = some ssP)
    (hPe : ∀ p ∈ ssP, p.2 = []) :
    (∃ pre suf, (format_email_body d ds).1
      = pre ++ [('\n' :: strOf "SUBSTACK"), List.replicate 8 '-',
          strOf "  No new posts in the last 24 hours"] ++ suf)
    ∧ (∃ pre suf, (format_email_body d ds).1
      = pre ++ [('\n' :: strOf "PODCASTS"), List.replicate 8 '-',
          strOf "  No new episodes in the last 48 hours"] ++ suf)
    ∧ (∃ pre suf, (format_email_body d ds).2
      = pre ++ [h2Line (strOf "SUBSTACK"), emptyPLine (strOf "SUBSTACK")] ++ suf)
    ∧ (∃ pre suf, (format_email_body d ds).2
      = pre ++ [h2Line (strOf "PODCASTS"), emptyPLine (strOf "PODCASTS")] ++ suf)
    ∧ (∀ nyt globe lapresse axios sp pe,
        lookupSource (buildAllHeadlines nyt globe lapresse axios sp pe)
          (strOf "SUBSTACK") = some [(strOf "AI Writers", sp)]
        ∧ lookupSource (buildAllHeadlines nyt globe lapresse axios sp pe)
          (strOf "PODCASTS") = some [(strOf "New Episodes", pe)]) := by
  have hcS : hasContent ssS = false := hasContent_false_of_all_empty ssS hSe
  have hcP : hasContent ssP = false := hasContent_false_of_all_empty ssP hPe
  have hbS : sourceTextBlock d (strOf "SUBSTACK")
      = [('\n' :: strOf "SUBSTACK"), List.replicate 8 '-',
          strOf "  No new posts in the last 24 hours"] := by
    rw [sourceTextBlock_emptyAlways d _ ssS (by decide) hS hcS]
    rfl
  have hbP : sourceTextBlock d (strOf "PODCASTS")
      = [('\n' :: strOf "PODCASTS"), List.replicate 8 '-',
          strOf "  No new episodes in the last 48 hours"] := by
    rw [sourceTextBlock_emptyAlways d _ ssP (by decide) hP hcP]
    rfl
  have hhS : sourceHtmlBlock d (strOf "SUBSTACK")
      = [h2Line (strOf "SUBSTACK"), emptyPLine (strOf "SUBSTACK")] :=
    sourceHtmlBlock_emptyAlways d _ ssS (by decide) hS hcS
  have hhP : sourceHtmlBlock d (strOf "PODCASTS")
      = [h2Line (strOf "PODCASTS"), emptyPLine (strOf "PODCASTS")] :=
    sourceHtmlBlock_emptyAlways d _ ssP (by decide) hP hcP
  have htext : (format_email_body d ds).1
      = textPreamble ds
        ++ (sourceTextBlock d (strOf "NEW YORK TIMES")
          ++ (sourceTextBlock d (strOf "LA PRESSE")
            ++ (sourceTextBlock d (strOf "GLOBE AND MAIL")
              ++ (sourceTextBlock d (strOf "AXIOS")
                ++ (sourceTextBlock d (strOf "SUBSTACK")
                  ++ (sourceTextBlock d (strOf "PODCASTS") ++ []))))))
        ++ textFooter := rfl
  have hhtml : (format_email_body d ds).2
      = htmlPreamble ds
        ++ (sourceHtmlBlock d (strOf "NEW YORK TIMES")
          ++ (sourceHtmlBlock d (strOf "LA PRESSE")
            ++ (sourceHtmlBlock d (strOf "GLOBE AND MAIL")
              ++ (sourceHtmlBlock d (strOf "AXIOS")
                ++ (sourceHtmlBlock d (strOf "SUBSTACK")
                  ++ (sourceHtmlBlock d (strOf "PODCASTS") ++ []))))))
        ++ htmlFooter := rfl
  refine ⟨?_, ?_, ?_, ?_, ?_⟩
  · refine ⟨textPreamble ds ++ sourceTextBlock d (strOf "NEW YORK TIMES")
      ++ sourceTextBlock d (strOf "LA PRESSE")
      ++ sourceTextBlock d (strOf "GLOBE AND MAIL")
      ++ sourceTextBlock d (strOf "AXIOS"),
      sourceTextBlock d (strOf "PODCASTS") ++ textFooter, ?_⟩
    rw [htext, hbS]
    simp [List.append_assoc]
  · refine ⟨textPreamble ds ++ sourceTextBlock d (strOf "NEW YORK TIMES")
      ++ sourceTextBlock d (strOf "LA PRESSE")
      ++ sourceTextBlock d (strOf "GLOBE AND MAIL")
      ++ sourceTextBlock d (strOf "AXIOS")
      ++ sourceTextBlock d (strOf "SUBSTACK"),
      textFooter, ?_⟩
    rw [htext, hbP]
    simp [List.append_assoc]
  · refine ⟨htmlPreamble ds ++ sourceHtmlBlock d (strOf "NEW YORK TIMES")
      ++ sourceHtmlBlock d (strOf "LA PRESSE")
      ++ sourceHtmlBlock d (strOf "GLOBE AND MAIL")
      ++ sourceHtmlBlock d (strOf "AXIOS"),
      sourceHtmlBlock d (strOf "PODCASTS") ++ htmlFooter, ?_⟩
    rw [hhtml, hhS]
    simp [List.append_assoc]
  · refine ⟨htmlPreamble ds ++ sourceHtmlBlock d (strOf "NEW YORK TIMES")
      ++ sourceHtmlBlock d (strOf "LA PRESSE")
      ++ sourceHtmlBlock d (strOf "GLOBE AND MAIL")
      ++ sourceHtmlBlock d (strOf "AXIOS")
      ++ sourceHtmlBlock d (strOf "SUBSTACK"),
      htmlFooter, ?_⟩
    rw [hhtml, hhP]
    simp [List.append_assoc]
  · intro nyt globe lapresse axios sp pe
    have h1 : lookupSource
        (if nyt.isEmpty then [] else [(strOf "NEW YORK TIMES", nyt)])
        (strOf "SUBSTACK") = none := by split <;> rfl
    have h2 : lookupSource
        (if globe.isEmpty then [] else [(strOf "GLOBE AND MAIL", globe)])
        (strOf "SUBSTACK") = none := by split <;> rfl
    have h3 : lookupSource
        (if lapresse.isEmpty then [] else [(strOf "LA PRESSE", lapresse)])
        (strOf "SUBSTACK") = none := by split <;> rfl
    have h4 : lookupSource
        (if axios.isEmpty then [] else [(strOf "AXIOS", [(strOf "Top Stories", axios)])])
        (strOf "SUBSTACK") = none := by split <;> rfl
    have g1 : lookupSource
        (if nyt.isEmpty then [] else [(strOf "NEW YORK TIMES", nyt)])
        (strOf "PODCASTS") = none := by split <;> rfl
    have g2 : lookupSource
        (if globe.isEmpty then [] else [(strOf "GLOBE AND MAIL", globe)])
        (strOf "PODCASTS") = none := by split <;> rfl
    have g3 : lookupSource
        (if lapresse.isEmpty then [] else [(strOf "LA PRESSE", lapresse)])
        (strOf "PODCASTS") = none := by split <;> rfl
    have g4 : lookupSource
        (if axios.isEmpty then [] else [(strOf "AXIOS", [(strOf "Top Stories", axios)])])
        (strOf "PODCASTS") = none := by split <;> rfl
    constructor
    · unfold buildAllHeadlines
      simp only [lookupSource_append, h1, h2, h3, h4]
      rfl
    · unfold buildAllHeadlines
      simp only [lookupSource_append, g1, g2, g3, g4]
      rfl

theorem c6_always_show_empty_state_witness :
    (∃ pre suf, (format_email_body
        [(strOf "SUBSTACK", [(strOf "AI Writers", [])]),
         (strOf "PODCASTS", [(strOf "New Episodes", [])])] (strOf "D")).1
      = pre ++ [('\n' :: strOf "SUBSTACK"), List.replicate 8 '-',
          strOf "  No new posts in the last 24 hours"] ++ suf)
    ∧ (∃ pre suf, (format_email_body
        [(strOf "SUBSTACK", [(strOf "AI Writers", [])]),
         (strOf "PODCASTS", [(strOf "New Episodes", [])])] (strOf "D")).2
      = pre ++ [h2Line (strOf "PODCASTS"), emptyPLine (strOf "PODCASTS")] ++ suf) := by
  have h := c6_always_show_empty_state
    [(strOf "SUBSTACK", [(strOf "AI Writers", [])]),
     (strOf "PODCASTS", [(strOf "New Episodes", [])])] (strOf "D")
    [(strOf "AI Writers", [])] [(strOf "New Episodes", [])]
    (by decide) (by decide) (by decide) (by decide)
  exact ⟨h.1, h.2.2.2.1⟩

/-- C8: the plain-text and HTML outputs are two renderings of one
traversal: `format_email_body` factors through the single decision record
`digestTraversal`, so both outputs show the same sources, sections and
headlines in identical order with identical skip and empty-state
decisions. -/
theorem c8_one_traversal (d : Digest) (ds : Str) :
    format_email_body d ds
      = (textPreamble ds ++ catMap renderTextItem (digestTraversal d) ++ textFooter,
         htmlPreamble ds ++ catMap renderHtmlItem (digestTraversal d) ++ htmlFooter) := by
  unfold format_email_body digestTraversal
  rw [catMap_renderText_skel, catMap_renderHtml_skel]

/-- C7: both outputs list source blocks in the fixed global order — the
source headers occurring in the text output (and the `<h2>` headers in the
HTML output) are exactly the shown sources in the order of `sourceOrder`,
whatever the digest's own key order; a source that is not shown (absent, or
empty and not always-shown) contributes no header to either output; and the
bullet titles of the text output are exactly the stored titles of each
shown source in source-declared order. -/
theorem c7_fixed_order (d : Digest) (ds : Str) :
    ((format_email_body d ds).1.filter isSrcHeader
      = (sourceOrder.filter (shownSource d)).map (fun s => '\n' :: s))
    ∧ ((format_email_body d ds).2.filter isSrcH2
      = (sourceOrder.filter (shownSource d)).map h2Line)
    ∧ (∀ src ∈ sourceOrder, shownSource d src = false →
        ('\n' :: src) ∉ (format_email_body d ds).1
        ∧ h2Line src ∉ (format_email_body d ds).2)
    ∧ ((format_email_body d ds).1.filterMap bulletTitle
      = catMap (renderedTitles d) sourceOrder) := by
  refine ⟨text_filter_isSrcHeader d ds, html_filter_isSrcH2 d ds, ?_, text_bullets d ds⟩
  intro src hsrc hshown
  constructor
  · intro hmem
    have htrue : isSrcHeader ('\n' :: src) = true := by fin_cases hsrc <;> rfl
    have hin : ('\n' :: src) ∈ (format_email_body d ds).1.filter isSrcHeader :=
      List.mem_filter.mpr ⟨hmem, htrue⟩
    rw [text_filter_isSrcHeader d ds] at hin
    obtain ⟨s, hs, heq⟩ := List.mem_map.mp hin
    have hss : s = src := by injection heq
    subst hss
    exact absurd (List.mem_filter.mp hs).2 (by simp [hshown])
  · intro hmem
    have htrue : isSrcH2 (h2Line src) = true := by fin_cases hsrc <;> rfl
    have hin : h2Line src ∈ (format_email_body d ds).2.filter isSrcH2 :=
      List.mem_filter.mpr ⟨hmem, htrue⟩
    rw [html_filter_isSrcH2 d ds] at hin
    obtain ⟨s, hs, heq⟩ := List.mem_map.mp hin
    have hss : s = src := by
      have h1 := List.append_cancel_right heq
      exact List.append_cancel_left h1
    subst hss
    exact absurd (List.mem_filter.mp hs).2 (by simp [hshown])

theorem c7_fixed_order_witness :
    ('\n' :: strOf "AXIOS") ∉ (format_email_body [] (strOf "D")).1
    ∧ h2Line (strOf "AXIOS") ∉ (format_email_body [] (strOf "D")).2 :=
  (c7_fixed_order [] (strOf "D")).2.2.1 (strOf "AXIOS") (by decide) (by decide)
